import Mathlib

/-!
Verification of the `structmerge` Go package (`structmerge.go`) against its
natural-language specification.

The development shallowly embeds the reflection-based merge engine:

* `Value` models a `reflect.Value`: leaves carry exactly the data the engine
  inspects (`Len`, `Bool`, `Int`, `Uint`, `Float`, `IsNil`) plus an opaque
  payload distinguishing contents the engine copies wholesale; structs carry
  their named type, whether the type is `time.Time`, whether the pointer type
  implements the `Merger` interface, and an ordered field list.
* A field records its name, whether it is exported (`CanSet` on a field of an
  addressable struct), whether the pointer to the field's type implements
  `Merger`, and its value.
* User-supplied `Merger.Merge` implementations are modelled by a parameter
  `impl : MergerImpl` giving, for the receiver's current value and the source
  value, the updated receiver value and the returned error.
* Reflection panics (`Value.Interface` on a value read from an unexported
  field, `Field(i)` out of range) are modelled by the `panic` outcome.

All functions are executable and compiled by structural recursion, so closed
facts about them are provable by `rfl` / `decide`.
-/

namespace StructMerge

/-- `reflect.Kind`, restricted to the kinds the engine distinguishes.
`kOther` stands for every kind that falls through the switches in
`isZero` (Chan, Func, Complex64/128, UnsafePointer, ...). -/
inductive Kind where
  | kBool | kInt | kUint | kFloat | kString
  | kSlice | kMap | kArray | kPtr | kInterface
  | kStruct | kOther
deriving DecidableEq

/-- The error values of `structmerge.go` (lines 9-13): the three structural
sentinel errors plus arbitrary errors produced by `Merger` implementations. -/
inductive MergeErr where
  | invalidDestination
  | invalidSource
  | typeMismatch
  | custom (msg : String)
deriving DecidableEq

/-- `MergeOption` (lines 38-47). -/
inductive MergeOption where
  | includeAll
  | excludeEmpty
  | overwriteEmpty
deriving DecidableEq

/-- `Config` (lines 49-54). -/
structure Config where
  Option : MergeOption
  Include : List String
  Exclude : List String

/-- Identity of a struct type: its name, whether it is exactly `time.Time`,
and whether its pointer type implements the `Merger` interface. -/
structure StructInfo where
  name : String
  isTime : Bool
  hasMerger : Bool
deriving DecidableEq

mutual
/-- A Go value as seen through `reflect`.  Numeric leaves carry the value the
engine compares with zero (floats are modelled by an integer code that is `0`
exactly when `v.Float() == 0`); `slice`/`map`/`array` leaves carry their
length plus an opaque content id (the engine only calls `Len` on them and
copies them wholesale); pointers at leaf positions are only tested with
`IsNil` and copied wholesale. -/
inductive Value where
  | vBool (b : Bool)
  | vInt (n : Int)
  | vUint (n : Nat)
  | vFloat (x : Int)
  | vString (s : String)
  | vSlice (len : Nat) (id : Nat)
  | vMap (len : Nat) (id : Nat)
  | vArray (len : Nat) (id : Nat)
  | vPtrNil
  | vPtr (pointee : Value)
  | vInterface (isNil : Bool) (id : Nat)
  | vStruct (info : StructInfo) (fields : Fields)
  | vOther (id : Nat)

/-- The ordered field list of a struct value. -/
inductive Fields where
  | nil
  | cons (f : Field) (rest : Fields)

/-- One struct field: name, exported flag (`CanSet`), whether the pointer to
the field's type implements `Merger`, and the field's value. -/
inductive Field where
  | mk (name : String) (exported : Bool) (hasMerger : Bool) (value : Value)
end

def Field.name : Field → String
  | .mk n _ _ _ => n

def Field.exported : Field → Bool
  | .mk _ e _ _ => e

def Field.hasMerger : Field → Bool
  | .mk _ _ m _ => m

def Field.value : Field → Value
  | .mk _ _ _ v => v

def Field.withValue : Field → Value → Field
  | .mk n e m _, v => .mk n e m v

/-- `reflect.Value.Kind` on the modelled values.  A typed nil pointer has
kind `Ptr` (only `Elem` of it is invalid). -/
def kind : Value → Kind
  | .vBool _ => .kBool
  | .vInt _ => .kInt
  | .vUint _ => .kUint
  | .vFloat _ => .kFloat
  | .vString _ => .kString
  | .vSlice _ _ => .kSlice
  | .vMap _ _ => .kMap
  | .vArray _ _ => .kArray
  | .vPtrNil => .kPtr
  | .vPtr _ => .kPtr
  | .vInterface _ _ => .kInterface
  | .vStruct _ _ => .kStruct
  | .vOther _ => .kOther

/-- `isZero` (lines 180-197): emptiness by kind.  Kinds not named in the
switch (struct, and everything mapped to `vOther`) are never empty. -/
def isZero : Value → Bool
  | .vBool b => !b
  | .vInt n => n == 0
  | .vUint n => n == 0
  | .vFloat x => x == 0
  | .vString s => s.length == 0
  | .vSlice len _ => len == 0
  | .vMap len _ => len == 0
  | .vArray len _ => len == 0
  | .vPtrNil => true
  | .vPtr _ => false
  | .vInterface isNil _ => isNil
  | .vStruct _ _ => false
  | .vOther _ => false

/-- `strings.Contains(s, ".")`: the only substring ever looked for is the
single character `"."`, so this is membership of `'.'` in the characters. -/
def containsDot (s : String) : Bool := s.data.any (fun c => c == '.')

/-- `strings.HasPrefix(key, fullFieldName)` on the modelled strings. -/
def hasPre (key fullFieldName : String) : Bool :=
  fullFieldName.data.isPrefixOf key.data

/-- `shouldInclude` (lines 163-178).  The Go map built from `cfg.Include` is
kept as the list itself: map membership is list membership, and the
`for key := range includeMap` loop is an existential over the keys. -/
def shouldInclude (fullFieldName : String) (includeMap : List String) : Bool :=
  if includeMap.contains fullFieldName then true
  else if !(containsDot fullFieldName) then
    includeMap.any (fun key => hasPre key fullFieldName)
  else false

mutual
/-- The static type of a value, as far as `dst.Type() != src.Type()`
(line 80) can distinguish the modelled values: non-struct leaves are typed by
their kind (a nil and a non-nil pointer of the same type compare equal),
structs by their name and their full recursive field signature. -/
inductive TypeRep where
  | prim (k : Kind)
  | tStruct (name : String) (fields : FieldReps)

/-- Type signatures of a field list: field name plus field type. -/
inductive FieldReps where
  | nil
  | cons (name : String) (t : TypeRep) (rest : FieldReps)
end

mutual
def typeRep : Value → TypeRep
  | .vStruct info fs => .tStruct info.name (fieldsRep fs)
  | v => .prim (kind v)

def fieldsRep : Fields → FieldReps
  | .nil => .nil
  | .cons (.mk n _ _ v) rest => .cons n (typeRep v) (fieldsRep rest)
end

mutual
/-- Boolean equality test on type representations (the computable form of
`dst.Type() != src.Type()`). -/
def trEq : TypeRep → TypeRep → Bool
  | .prim k1, .prim k2 => k1 == k2
  | .tStruct n1 f1, .tStruct n2 f2 => n1 == n2 && frEq f1 f2
  | .prim _, .tStruct _ _ => false
  | .tStruct _ _, .prim _ => false

def frEq : FieldReps → FieldReps → Bool
  | .nil, .nil => true
  | .cons n1 t1 r1, .cons n2 t2 r2 => n1 == n2 && trEq t1 t2 && frEq r1 r2
  | .nil, .cons _ _ _ => false
  | .cons _ _ _, .nil => false
end

/-- Behaviour of the user-written `Merger.Merge` implementations: given the
receiver's current value and the source value, the updated receiver value and
the returned error. -/
def MergerImpl := Value → Value → Value × Option MergeErr

/-- Outcome of `mergeValues`: the (possibly partially) updated destination
argument together with the returned error, or a reflection panic. -/
inductive MergeOut where
  | panic
  | ret (dst : Value) (err : Option MergeErr)

/-- Outcome of the field loop (lines 109-158) on a field list. -/
inductive LoopOut where
  | panic
  | ret (fields : Fields) (err : Option MergeErr)

/-- Prepend an already-processed field to the outcome of the rest of the
loop (the loop mutates fields left to right). -/
def consLoop (f : Field) : LoopOut → LoopOut
  | .panic => .panic
  | .ret fs e => .ret (.cons f fs) e

mutual
/-- Lines 66-161 of `mergeValues` from the point where the destination has
been dereferenced: `dst` here is `dst.Elem()` of the Go code, and the caller
re-wraps the updated value into the pointer.

* non-struct `dst` → `ErrInvalidDestination` (second half of the line 67
  test);
* non-struct `src` → `ErrInvalidSource` (line 76);
* differing types → `ErrTypeMismatch` (line 80);
* `time.Time` → wholesale copy (lines 84-90; the `dst.CanInterface()` guard
  is always true on this path, since recursion only enters settable fields);
* `*T implements Merger` → full delegation, error returned verbatim
  (lines 92-97; `dst.CanAddr()` is always true on this path);
* otherwise the field loop. -/
def mergeBody (impl : MergerImpl) (cfg : Config) :
    String → Value → Value → MergeOut
  | pfx, .vStruct info dfields, src =>
      match src with
      | .vStruct sinfo sfields =>
          if trEq (typeRep (.vStruct info dfields))
              (typeRep (.vStruct sinfo sfields)) then
            if info.isTime then
              MergeOut.ret (.vStruct sinfo sfields) none
            else if info.hasMerger then
              let r := impl (.vStruct info dfields) (.vStruct sinfo sfields)
              MergeOut.ret r.1 r.2
            else
              match mergeLoop impl cfg pfx dfields sfields with
              | .panic => MergeOut.panic
              | .ret nf e => MergeOut.ret (.vStruct info nf) e
          else
            MergeOut.ret (.vStruct info dfields) (some .typeMismatch)
      | _ => MergeOut.ret (.vStruct info dfields) (some .invalidSource)
  | _, d, _ => MergeOut.ret d (some .invalidDestination)

/-- The field loop (lines 109-158).  The destination and source field lists
are walked in parallel (`dst.Field(i)` / `src.Field(i)`); a source list that
runs out first would be an index-out-of-range reflection panic, which cannot
happen for same-typed operands.  Per field, in source order:

* include filter (line 115), exclude filter (line 119);
* field-level `Merger` dispatch (lines 126-131): `dstField.CanAddr()` is
  always true for a field of an addressable struct, and
  `dstField.Addr().Interface()` panics when the field is unexported; the
  override's error is discarded and the loop continues;
* `CanSet` test (line 134): unexported fields are skipped;
* nested struct recursion (lines 139-144) with immediate error return;
* leaf policy (lines 145-157). -/
def mergeLoop (impl : MergerImpl) (cfg : Config) :
    String → Fields → Fields → LoopOut
  | _, .nil, _ => LoopOut.ret .nil none
  | _, .cons _ _, .nil => LoopOut.panic
  | pfx, .cons (.mk nm ex hm v) dr, .cons (.mk _ _ _ sv) sr =>
      let fullFieldName := pfx ++ nm
      if (!cfg.Include.isEmpty) && !(shouldInclude fullFieldName cfg.Include) then
        consLoop (.mk nm ex hm v) (mergeLoop impl cfg pfx dr sr)
      else if cfg.Exclude.contains fullFieldName then
        consLoop (.mk nm ex hm v) (mergeLoop impl cfg pfx dr sr)
      else if hm then
        if ex then
          let r := impl v sv
          consLoop (.mk nm ex hm r.1) (mergeLoop impl cfg pfx dr sr)
        else
          LoopOut.panic
      else if !ex then
        consLoop (.mk nm ex hm v) (mergeLoop impl cfg pfx dr sr)
      else if kind v == Kind.kStruct then
        match mergeBody impl cfg (fullFieldName ++ ".") v sv with
        | .panic => LoopOut.panic
        | .ret nv none =>
            consLoop (.mk nm ex hm nv) (mergeLoop impl cfg pfx dr sr)
        | .ret nv (some e) => LoopOut.ret (.cons (.mk nm ex hm nv) dr) (some e)
      else
        let shouldSet : Bool :=
          match cfg.Option with
          | .excludeEmpty => !(isZero sv)
          | .overwriteEmpty => isZero v
          | .includeAll => true
        if shouldSet || cfg.Option == MergeOption.includeAll then
          consLoop (.mk nm ex hm sv) (mergeLoop impl cfg pfx dr sr)
        else
          consLoop (.mk nm ex hm v) (mergeLoop impl cfg pfx dr sr)
end

/-- `mergeValues` (lines 66-161) on the un-dereferenced destination argument.
The line 67 test `dst.Kind() != Ptr || dst.Elem().Kind() != Struct` rejects
every non-pointer, and also every nil pointer: in `reflect`, `Elem()` of a
nil pointer is the zero `Value`, whose kind is `Invalid`, not `Struct`.
Consequently the `dst.IsNil()` materialization block (lines 71-73) is
unreachable and does not appear below. -/
def mergeValues (impl : MergerImpl) (dst src : Value) (cfg : Config)
    (pfx : String) : MergeOut :=
  match dst with
  | .vPtr pointee =>
      match mergeBody impl cfg pfx pointee src with
      | .panic => MergeOut.panic
      | .ret d e => MergeOut.ret (.vPtr d) e
  | .vPtrNil => MergeOut.ret .vPtrNil (some .invalidDestination)
  | d => MergeOut.ret d (some .invalidDestination)

/-- `Merge` (lines 58-64): variadic configuration, defaulting to
`Config{Option: IncludeAll}`. -/
def Merge (impl : MergerImpl) (dst src : Value) (cfg : List Config) :
    MergeOut :=
  let c := match cfg with
    | [] => { Option := MergeOption.includeAll, Include := [], Exclude := [] }
    | c0 :: _ => c0
  mergeValues impl dst src c ""

/-! ### Shape predicates and inversion lemmas -/

/-- `dst.Kind() == Ptr && dst.Elem().Kind() == Struct`: the line 67 test.
A nil pointer fails it, because `Elem()` of a nil pointer has kind
`Invalid`. -/
def ptrToStruct : Value → Bool
  | .vPtr (.vStruct _ _) => true
  | _ => false

/-- `v.Kind() == Struct`. -/
def isStructVal : Value → Bool
  | .vStruct _ _ => true
  | _ => false

/-- Whether an error is one of the three structural validation errors. -/
def structuralErr : Option MergeErr → Bool
  | some .invalidDestination => true
  | some .invalidSource => true
  | some .typeMismatch => true
  | _ => false

theorem trEq_typeRep_struct {info : StructInfo} {df : Fields} {s : Value}
    (h : trEq (typeRep (.vStruct info df)) (typeRep s) = true) :
    ∃ sinfo sf, s = .vStruct sinfo sf ∧ info.name = sinfo.name ∧
      frEq (fieldsRep df) (fieldsRep sf) = true := by
  cases s <;> simp [typeRep, trEq] at h
  case vStruct sinfo sf =>
    exact ⟨sinfo, sf, rfl, h.1, h.2⟩

theorem frEq_cons_inv {nm : String} {ex hm : Bool} {v : Value} {dr sfs : Fields}
    (h : frEq (fieldsRep (.cons (.mk nm ex hm v) dr)) (fieldsRep sfs) = true) :
    ∃ snm sex shm sv sr, sfs = .cons (.mk snm sex shm sv) sr ∧
      trEq (typeRep v) (typeRep sv) = true ∧
      frEq (fieldsRep dr) (fieldsRep sr) = true := by
  cases sfs with
  | nil => simp [fieldsRep, frEq] at h
  | cons sf sr =>
    obtain ⟨snm, sex, shm, sv⟩ := sf
    simp [fieldsRep, frEq] at h
    exact ⟨snm, sex, shm, sv, sr, rfl, h.1.2, h.2⟩

theorem kind_struct_exists {v : Value} (h : kind v = Kind.kStruct) :
    ∃ info fs, v = .vStruct info fs := by
  cases v <;> simp [kind] at h ⊢

theorem consLoop_ret_inv {f : Field} {r : LoopOut} {fs : Fields}
    {e : Option MergeErr} (h : consLoop f r = .ret fs e) :
    ∃ fs', r = .ret fs' e ∧ fs = .cons f fs' := by
  cases r with
  | panic => simp [consLoop] at h
  | ret fs' e' =>
      simp [consLoop] at h
      exact ⟨fs', by rw [h.2], h.1.symm⟩

/- After validation has passed, the engine itself never produces one of the
three structural errors: any error in the outcome comes from a whole-record
`Merger` override or propagates from a nested one. -/
mutual
theorem noStructuralBody (impl : MergerImpl) (cfg : Config)
    (himpl : ∀ a b, structuralErr (impl a b).2 = false) :
    ∀ (pfx : String) (d s : Value), trEq (typeRep d) (typeRep s) = true →
      kind d = Kind.kStruct →
      ∀ v e, mergeBody impl cfg pfx d s = .ret v e → structuralErr e = false
  | pfx, .vStruct info df, s, ht, _, v, e, heq => by
      obtain ⟨sinfo, sf, rfl, _, hfr⟩ := trEq_typeRep_struct ht
      simp only [mergeBody, ht, if_true] at heq
      cases htime : info.isTime with
      | true =>
          simp [htime] at heq
          rw [← heq.2]
          simp [structuralErr]
      | false =>
          cases hmg : info.hasMerger with
          | true =>
              simp [htime, hmg] at heq
              rw [← heq.2]
              exact himpl _ _
          | false =>
              simp only [htime, hmg, Bool.false_eq_true, if_false] at heq
              cases hrec : mergeLoop impl cfg pfx df sf with
              | panic => rw [hrec] at heq; simp at heq
              | ret nf e' =>
                  rw [hrec] at heq
                  simp at heq
                  rw [← heq.2]
                  exact noStructuralLoop impl cfg himpl pfx df sf hfr nf e' hrec
  | _, .vBool _, _, _, hk, _, _, _ => by simp [kind] at hk
  | _, .vInt _, _, _, hk, _, _, _ => by simp [kind] at hk
  | _, .vUint _, _, _, hk, _, _, _ => by simp [kind] at hk
  | _, .vFloat _, _, _, hk, _, _, _ => by simp [kind] at hk
  | _, .vString _, _, _, hk, _, _, _ => by simp [kind] at hk
  | _, .vSlice _ _, _, _, hk, _, _, _ => by simp [kind] at hk
  | _, .vMap _ _, _, _, hk, _, _, _ => by simp [kind] at hk
  | _, .vArray _ _, _, _, hk, _, _, _ => by simp [kind] at hk
  | _, .vPtrNil, _, _, hk, _, _, _ => by simp [kind] at hk
  | _, .vPtr _, _, _, hk, _, _, _ => by simp [kind] at hk
  | _, .vInterface _ _, _, _, hk, _, _, _ => by simp [kind] at hk
  | _, .vOther _, _, _, hk, _, _, _ => by simp [kind] at hk

theorem noStructuralLoop (impl : MergerImpl) (cfg : Config)
    (himpl : ∀ a b, structuralErr (impl a b).2 = false) :
    ∀ (pfx : String) (dfs sfs : Fields),
      frEq (fieldsRep dfs) (fieldsRep sfs) = true →
      ∀ fs e, mergeLoop impl cfg pfx dfs sfs = .ret fs e → structuralErr e = false
  | pfx, .nil, sfs, _, fs, e, heq => by
      simp only [mergeLoop] at heq
      cases heq
      simp [structuralErr]
  | pfx, .cons (.mk nm ex hm v) dr, sfs, hfr, fs, e, heq => by
      obtain ⟨snm, sex, shm, sv, sr, rfl, htv, hrest⟩ := frEq_cons_inv hfr
      simp only [mergeLoop] at heq
      cases hc1 : (!cfg.Include.isEmpty) && !(shouldInclude (pfx ++ nm) cfg.Include) with
      | true =>
          rw [hc1] at heq
          simp only [if_true] at heq
          obtain ⟨fs', hrec, _⟩ := consLoop_ret_inv heq
          exact noStructuralLoop impl cfg himpl pfx dr sr hrest fs' e hrec
      | false =>
          rw [hc1] at heq
          simp only [Bool.false_eq_true, if_false] at heq
          cases hc2 : cfg.Exclude.contains (pfx ++ nm) with
          | true =>
              rw [hc2] at heq
              simp only [if_true] at heq
              obtain ⟨fs', hrec, _⟩ := consLoop_ret_inv heq
              exact noStructuralLoop impl cfg himpl pfx dr sr hrest fs' e hrec
          | false =>
              rw [hc2] at heq
              simp only [Bool.false_eq_true, if_false] at heq
              cases hm with
              | true =>
                  cases ex with
                  | true =>
                      simp only [if_true] at heq
                      obtain ⟨fs', hrec, _⟩ := consLoop_ret_inv heq
                      exact noStructuralLoop impl cfg himpl pfx dr sr hrest fs' e hrec
                  | false => simp at heq
              | false =>
                  simp only [Bool.false_eq_true, if_false] at heq
                  cases ex with
                  | false =>
                      simp only [Bool.not_false, if_true] at heq
                      obtain ⟨fs', hrec, _⟩ := consLoop_ret_inv heq
                      exact noStructuralLoop impl cfg himpl pfx dr sr hrest fs' e hrec
                  | true =>
                      simp only [Bool.not_true, Bool.false_eq_true, if_false] at heq
                      cases hk : kind v == Kind.kStruct with
                      | true =>
                          rw [hk] at heq
                          simp only [if_true] at heq
                          cases hbody : mergeBody impl cfg (pfx ++ nm ++ ".") v sv with
                          | panic => rw [hbody] at heq; simp at heq
                          | ret nv oe =>
                              rw [hbody] at heq
                              cases oe with
                              | none =>
                                  simp only at heq
                                  obtain ⟨fs', hrec, _⟩ := consLoop_ret_inv heq
                                  exact noStructuralLoop impl cfg himpl pfx dr sr hrest fs' e hrec
                              | some err =>
                                  simp only [LoopOut.ret.injEq] at heq
                                  rw [← heq.2]
                                  exact noStructuralBody impl cfg himpl
                                    (pfx ++ nm ++ ".") v sv htv (beq_iff_eq.mp hk)
                                    nv (some err) hbody
                      | false =>
                          rw [hk] at heq
                          simp only [Bool.false_eq_true, if_false] at heq
                          cases hss : (match cfg.Option with
                              | MergeOption.excludeEmpty => !(isZero sv)
                              | MergeOption.overwriteEmpty => isZero v
                              | MergeOption.includeAll => true) ||
                              cfg.Option == MergeOption.includeAll with
                          | true =>
                              rw [hss] at heq
                              simp only [if_true] at heq
                              obtain ⟨fs', hrec, _⟩ := consLoop_ret_inv heq
                              exact noStructuralLoop impl cfg himpl pfx dr sr hrest fs' e hrec
                          | false =>
                              rw [hss] at heq
                              simp only [Bool.false_eq_true, if_false] at heq
                              obtain ⟨fs', hrec, _⟩ := consLoop_ret_inv heq
                              exact noStructuralLoop impl cfg himpl pfx dr sr hrest fs' e hrec
end

/-! ### Concrete fixtures

The struct types of `structmerge_test.go`, modelled field for field. -/

/-- A `Merger` implementation that leaves the receiver unchanged and
returns no error (a legal user implementation). -/
def implId : MergerImpl := fun d _ => (d, none)

/-- The `Address` test struct. -/
def addrV (street city country : String) : Value :=
  .vStruct ⟨"structmerge.Address", false, false⟩
    (.cons (.mk "Street" true false (.vString street))
    (.cons (.mk "City" true false (.vString city))
    (.cons (.mk "Country" true false (.vString country)) .nil)))

/-- The `TestStruct` test struct, with its unexported `hidden` field. -/
def testStructV (nm : String) (age : Int) (addr : Value) (active : Bool)
    (count : Nat) (hidden : String) : Value :=
  .vStruct ⟨"structmerge.TestStruct", false, false⟩
    (.cons (.mk "Name" true false (.vString nm))
    (.cons (.mk "Age" true false (.vInt age))
    (.cons (.mk "Address" true false addr)
    (.cons (.mk "Active" true false (.vBool active))
    (.cons (.mk "Count" true false (.vUint count))
    (.cons (.mk "hidden" false false (.vString hidden)) .nil))))))

/-- Default configuration value. -/
def allCfg : Config :=
  { Option := MergeOption.includeAll, Include := [], Exclude := [] }

/-! ### The verbatim-copy specification for the default configuration -/

mutual
/-- No value in the tree is `time.Time` and no type in the tree implements
`Merger`: on such values the engine performs only generic field-walking. -/
def noOverride : Value → Bool
  | .vStruct info fs => !info.isTime && !info.hasMerger && noOverrideFields fs
  | _ => true

def noOverrideFields : Fields → Bool
  | .nil => true
  | .cons (.mk _ _ hm v) rest => !hm && noOverride v && noOverrideFields rest
end

mutual
/-- Modelled from the spec: "for all field-compatible record pairs with
default configuration, the result equals the source verbatim
(field-for-field), except for unsettable/private fields, which retain the
destination's original value". -/
def specMergeAll : Value → Value → Value
  | .vStruct info df, .vStruct _ sf => .vStruct info (specMergeAllFields df sf)
  | _, s => s

def specMergeAllFields : Fields → Fields → Fields
  | .nil, _ => .nil
  | .cons f r, .nil => .cons f r
  | .cons (.mk nm ex hm v) dr, .cons (.mk _ _ _ sv) sr =>
      .cons (.mk nm ex hm (if ex then specMergeAll v sv else v))
        (specMergeAllFields dr sr)
end

theorem specMergeAll_nonstruct {v : Value} (s : Value)
    (h : kind v ≠ Kind.kStruct) : specMergeAll v s = s := by
  cases v <;> first
    | (exact absurd rfl h)
    | (cases s <;> simp [specMergeAll])

theorem allCfg_Option : allCfg.Option = MergeOption.includeAll := rfl

theorem allCfg_Include : allCfg.Include = [] := rfl

theorem allCfg_Exclude : allCfg.Exclude = [] := rfl

/- Under the default configuration, on override-free value trees, the engine
computes exactly the spec's verbatim copy. -/
mutual
theorem mergeBodyIncludeAll (impl : MergerImpl) :
    ∀ (pfx : String) (d s : Value), noOverride d = true →
      trEq (typeRep d) (typeRep s) = true → kind d = Kind.kStruct →
      mergeBody impl allCfg pfx d s = .ret (specMergeAll d s) none
  | pfx, .vStruct info df, s, hno, ht, _ => by
      obtain ⟨sinfo, sf, rfl, _, hfr⟩ := trEq_typeRep_struct ht
      simp only [noOverride, Bool.and_eq_true, Bool.not_eq_true'] at hno
      simp only [mergeBody, ht, if_true, hno.1.1, hno.1.2, Bool.false_eq_true,
        if_false]
      rw [mergeLoopIncludeAll impl pfx df sf hno.2 hfr]
      simp [specMergeAll]
  | _, .vBool _, _, _, _, hk => by simp [kind] at hk
  | _, .vInt _, _, _, _, hk => by simp [kind] at hk
  | _, .vUint _, _, _, _, hk => by simp [kind] at hk
  | _, .vFloat _, _, _, _, hk => by simp [kind] at hk
  | _, .vString _, _, _, _, hk => by simp [kind] at hk
  | _, .vSlice _ _, _, _, _, hk => by simp [kind] at hk
  | _, .vMap _ _, _, _, _, hk => by simp [kind] at hk
  | _, .vArray _ _, _, _, _, hk => by simp [kind] at hk
  | _, .vPtrNil, _, _, _, hk => by simp [kind] at hk
  | _, .vPtr _, _, _, _, hk => by simp [kind] at hk
  | _, .vInterface _ _, _, _, _, hk => by simp [kind] at hk
  | _, .vOther _, _, _, _, hk => by simp [kind] at hk

theorem mergeLoopIncludeAll (impl : MergerImpl) :
    ∀ (pfx : String) (dfs sfs : Fields), noOverrideFields dfs = true →
      frEq (fieldsRep dfs) (fieldsRep sfs) = true →
      mergeLoop impl allCfg pfx dfs sfs =
        .ret (specMergeAllFields dfs sfs) none
  | pfx, .nil, sfs, _, _ => by
      simp [mergeLoop, specMergeAllFields]
  | pfx, .cons (.mk nm ex hm v) dr, sfs, hno, hfr => by
      obtain ⟨snm, sex, shm, sv, sr, rfl, htv, hrest⟩ := frEq_cons_inv hfr
      simp only [noOverrideFields, Bool.and_eq_true, Bool.not_eq_true'] at hno
      obtain ⟨⟨hm0, hnov⟩, hnor⟩ := hno
      subst hm0
      simp only [mergeLoop, allCfg_Option, allCfg_Include, allCfg_Exclude,
        List.isEmpty_nil, Bool.not_true, Bool.false_and, Bool.false_eq_true,
        if_false, List.contains_nil, Bool.not_eq_true]
      cases ex with
      | false =>
          simp only [Bool.not_false, if_true]
          rw [mergeLoopIncludeAll impl pfx dr sr hnor hrest]
          simp [consLoop, specMergeAllFields]
      | true =>
          simp only [Bool.not_true, Bool.false_eq_true, if_false]
          cases hk : kind v == Kind.kStruct with
          | true =>
              simp only [hk, if_true]
              rw [mergeBodyIncludeAll impl (pfx ++ nm ++ ".") v sv hnov htv
                (beq_iff_eq.mp hk)]
              rw [mergeLoopIncludeAll impl pfx dr sr hnor hrest]
              simp [consLoop, specMergeAllFields]
          | false =>
              simp only [hk, Bool.false_eq_true, if_false]
              rw [mergeLoopIncludeAll impl pfx dr sr hnor hrest]
              simp only [Bool.true_or, if_true, consLoop, specMergeAllFields,
                if_pos]
              rw [specMergeAll_nonstruct sv
                (fun hc => by rw [hc] at hk; simp at hk)]
end

/-! ### Claim theorems -/

/-- C6: `Merge`'s validation errors are checked in this order,
short-circuiting, and are the only structural errors: a destination that is
not a pointer to a struct (nil pointers included) gives
`ErrInvalidDestination` regardless of the source; a valid destination with a
non-struct source gives `ErrInvalidSource` regardless of types; two structs
of different types give `ErrTypeMismatch`; and once all three checks pass,
no structural error is ever produced by the engine itself (any error then
comes from a `Merger` override, so if the overrides never return a
structural error, neither does `Merge`). -/
theorem merge_validation_order :
    (∀ (impl : MergerImpl) (dst src : Value) (cfgs : List Config),
      ptrToStruct dst = false →
      Merge impl dst src cfgs = .ret dst (some .invalidDestination)) ∧
    (∀ (impl : MergerImpl) (d src : Value) (cfgs : List Config),
      isStructVal d = true → isStructVal src = false →
      Merge impl (.vPtr d) src cfgs = .ret (.vPtr d) (some .invalidSource)) ∧
    (∀ (impl : MergerImpl) (d src : Value) (cfgs : List Config),
      isStructVal d = true → isStructVal src = true →
      trEq (typeRep d) (typeRep src) = false →
      Merge impl (.vPtr d) src cfgs = .ret (.vPtr d) (some .typeMismatch)) ∧
    (∀ (impl : MergerImpl) (d src : Value) (cfgs : List Config),
      (∀ a b, structuralErr (impl a b).2 = false) →
      isStructVal d = true →
      trEq (typeRep d) (typeRep src) = true →
      ∀ v e, Merge impl (.vPtr d) src cfgs = .ret v e →
      structuralErr e = false) := by
  refine ⟨?_, ?_, ?_, ?_⟩
  · intro impl dst src cfgs h
    cases dst
    case vPtr pointee =>
      cases pointee <;> simp_all [ptrToStruct, Merge, mergeValues, mergeBody]
    all_goals simp_all [ptrToStruct, Merge, mergeValues]
  · intro impl d src cfgs h1 h2
    cases d <;> simp [isStructVal] at h1
    cases src <;> simp_all [isStructVal, Merge, mergeValues, mergeBody]
  · intro impl d src cfgs h1 h2 h3
    cases d <;> simp [isStructVal] at h1
    cases src <;> simp [isStructVal] at h2
    simp [Merge, mergeValues, mergeBody, h3]
  · intro impl d src cfgs himpl h1 ht v e heq
    cases d <;> simp [isStructVal] at h1
    case vStruct info df =>
      simp only [Merge] at heq
      generalize hc : (match cfgs with
        | [] => ({ Option := MergeOption.includeAll, Include := [],
                   Exclude := [] } : Config)
        | c0 :: _ => c0) = c at heq
      simp only [mergeValues] at heq
      cases hbody : mergeBody impl c "" (.vStruct info df) src with
      | panic => rw [hbody] at heq; simp at heq
      | ret bv be =>
          rw [hbody] at heq
          simp at heq
          rw [← heq.2]
          exact noStructuralBody impl c himpl "" (.vStruct info df) src ht rfl
            bv be hbody

/-- Witness for C6: each validation error at a concrete input, and a
successfully validated concrete merge whose error is not structural. -/
theorem merge_validation_order_witness :
    Merge implId (.vBool true) (.vInt 3) [] =
      .ret (.vBool true) (some .invalidDestination) ∧
    Merge implId (.vPtr (addrV "a" "b" "c")) (.vInt 3) [] =
      .ret (.vPtr (addrV "a" "b" "c")) (some .invalidSource) ∧
    Merge implId (.vPtr (addrV "a" "b" "c")) (testStructV "x" 1 (addrV "" "" "") true 2 "h") [] =
      .ret (.vPtr (addrV "a" "b" "c")) (some .typeMismatch) ∧
    structuralErr none = false :=
  ⟨merge_validation_order.1 implId (.vBool true) (.vInt 3) [] (by decide),
   merge_validation_order.2.1 implId (addrV "a" "b" "c") (.vInt 3) [] (by decide) (by decide),
   merge_validation_order.2.2.1 implId (addrV "a" "b" "c")
     (testStructV "x" 1 (addrV "" "" "") true 2 "h") [] (by decide) (by decide) (by decide),
   merge_validation_order.2.2.2 implId (addrV "a" "b" "c") (addrV "d" "e" "f") []
     (fun _ _ => rfl) (by decide) (by decide)
     (.vPtr (addrV "d" "e" "f")) none rfl⟩

/-- Field lookup by name, for reading a single leaf out of a value. -/
def fieldByName : Fields → String → Option Value
  | .nil, _ => none
  | .cons (.mk n _ _ v) rest, target =>
      if n == target then some v else fieldByName rest target

/-- Read a named field of a struct value. -/
def structField : Value → String → Option Value
  | .vStruct _ fs, n => fieldByName fs n
  | _, _ => none

/-- Read a `uint` leaf. -/
def uintLeaf : Option Value → Option Nat
  | some (.vUint k) => some k
  | _ => none

/-- A `time.Time` value; its only modelled field stands for the unexported
`wall`/`ext`/`loc` fields of the real type. -/
def timeV (wall : Nat) : Value :=
  .vStruct ⟨"time.Time", true, false⟩
    (.cons (.mk "wall" false false (.vUint wall)) .nil)

/-- A struct with a single exported field of type `time.Time`. -/
def eventV (wall : Nat) : Value :=
  .vStruct ⟨"main.Event", false, false⟩
    (.cons (.mk "When" true false (timeV wall)) .nil)

/-- C1 counterexample: with the default configuration, merging two `Event`
records whose `time.Time` field differs in its unexported `wall` field
succeeds and overwrites the unexported field wholesale: the merged
destination's `When.wall` is the source's `2`, not the destination's
original `1`, so an unsettable/private field did not retain the
destination's value. -/
theorem includeAll_privacy_counterexample :
    Merge implId (.vPtr (eventV 1)) (eventV 2) [] =
      .ret (.vPtr (eventV 2)) none ∧
    uintLeaf ((structField (eventV 2) "When").bind
      (fun t => structField t "wall")) = some 2 ∧
    uintLeaf ((structField (eventV 1) "When").bind
      (fun t => structField t "wall")) = some 1 ∧
    (some 2 : Option Nat) ≠ some 1 :=
  ⟨rfl, rfl, rfl, by decide⟩

/-- C1 (amended): for every pair of same-typed records whose value trees
contain no `time.Time` value and no `Merger`-implementing type, merging with
the default configuration succeeds and produces exactly the spec's verbatim
copy `specMergeAll`: every exported field (recursively) takes the source's
value and every unexported field (with everything beneath it) retains the
destination's value.  (Without the no-override restriction the claim fails,
see `includeAll_privacy_counterexample`.) -/
theorem merge_includeAll_verbatim (impl : MergerImpl) (d s : Value)
    (hno : noOverride d = true) (ht : trEq (typeRep d) (typeRep s) = true)
    (hk : kind d = Kind.kStruct) :
    Merge impl (.vPtr d) s [] = .ret (.vPtr (specMergeAll d s)) none := by
  have h := mergeBodyIncludeAll impl "" d s hno ht hk
  simp only [allCfg] at h
  simp only [Merge, mergeValues]
  rw [h]

/-- Witness for C1 at the `TestStruct` fixtures: the merged destination is
the source except for the unexported `hidden` field. -/
theorem merge_includeAll_verbatim_witness :
    noOverride (testStructV "Alice" 30 (addrV "123 Old St" "Old City" "") false 0 "old") = true ∧
    Merge implId
      (.vPtr (testStructV "Alice" 30 (addrV "123 Old St" "Old City" "") false 0 "old"))
      (testStructV "Bob" 25 (addrV "456 New St" "New City" "New Country") true 5 "new") [] =
    .ret (.vPtr (specMergeAll
      (testStructV "Alice" 30 (addrV "123 Old St" "Old City" "") false 0 "old")
      (testStructV "Bob" 25 (addrV "456 New St" "New City" "New Country") true 5 "new")))
      none :=
  ⟨by decide,
   merge_includeAll_verbatim implId
     (testStructV "Alice" 30 (addrV "123 Old St" "Old City" "") false 0 "old")
     (testStructV "Bob" 25 (addrV "456 New St" "New City" "New Country") true 5 "new")
     (by decide) (by decide) rfl⟩

/-- The `Person` struct of the package README. -/
def personV (nm : String) (age : Int) (addr : Value) : Value :=
  .vStruct ⟨"main.Person", false, false⟩
    (.cons (.mk "Name" true false (.vString nm))
    (.cons (.mk "Age" true false (.vInt age))
    (.cons (.mk "Address" true false addr) .nil)))

/-- A struct whose pointer type implements `Merger` (like `Date` in
`structmerge_test.go`), with an unexported payload field. -/
def dateV (wall : Nat) : Value :=
  .vStruct ⟨"structmerge.Date", false, true⟩
    (.cons (.mk "wall" false false (.vUint wall)) .nil)

/-- A struct with one exported field whose pointer type implements
`Merger`. -/
def planV (d : Nat) : Value :=
  .vStruct ⟨"main.Plan", false, false⟩
    (.cons (.mk "D" true true (.vUint d)) .nil)

/-- A struct with one unexported field whose pointer type implements
`Merger`. -/
def secretV (n : Int) : Value :=
  .vStruct ⟨"main.Hidden", false, false⟩
    (.cons (.mk "secret" false true (.vInt n)) .nil)

/-- A `Merger` implementation that copies the source into the receiver and
reports an error (its receiver update is still applied at field level). -/
def implBoom : MergerImpl := fun _ s => (s, some (.custom "boom"))

def cfgEE : Config :=
  { Option := MergeOption.excludeEmpty, Include := [], Exclude := [] }

def cfgOE : Config :=
  { Option := MergeOption.overwriteEmpty, Include := [], Exclude := [] }

def cfgInc : Config :=
  { Option := MergeOption.includeAll, Include := ["Address.Street"],
    Exclude := [] }

def cfgExc : Config :=
  { Option := MergeOption.includeAll, Include := ["Name"],
    Exclude := ["Name"] }

/-- C2: under `ExcludeEmpty`, a processed leaf field (non-struct kind,
settable, passing the include/exclude filters, no `Merger` override) keeps
the destination's prior value when the source field is empty and takes the
source's value otherwise; and the emptiness predicate is exactly: length
zero for string/slice/map/array, false for bool, zero for signed/unsigned
integers and floats, nil for pointer/interface, never empty for any other
kind. -/
theorem excludeEmpty_leaf_policy :
    (∀ (impl : MergerImpl) (cfg : Config) (pfx : String) (df sf : Field)
        (dr sr : Fields),
      cfg.Option = MergeOption.excludeEmpty →
      ((!cfg.Include.isEmpty) &&
        !(shouldInclude (pfx ++ df.name) cfg.Include)) = false →
      cfg.Exclude.contains (pfx ++ df.name) = false →
      df.hasMerger = false → df.exported = true →
      kind df.value ≠ Kind.kStruct →
      mergeLoop impl cfg pfx (.cons df dr) (.cons sf sr) =
        consLoop
          (df.withValue (if isZero sf.value then df.value else sf.value))
          (mergeLoop impl cfg pfx dr sr)) ∧
    (∀ s, isZero (.vString s) = (s.length == 0)) ∧
    (∀ len id, isZero (.vSlice len id) = (len == 0)) ∧
    (∀ len id, isZero (.vMap len id) = (len == 0)) ∧
    (∀ len id, isZero (.vArray len id) = (len == 0)) ∧
    (∀ b, isZero (.vBool b) = !b) ∧
    (∀ n, isZero (.vInt n) = (n == 0)) ∧
    (∀ n, isZero (.vUint n) = (n == 0)) ∧
    (∀ x, isZero (.vFloat x) = (x == 0)) ∧
    (isZero .vPtrNil = true) ∧
    (∀ p, isZero (.vPtr p) = false) ∧
    (∀ b id, isZero (.vInterface b id) = b) ∧
    (∀ info fs, isZero (.vStruct info fs) = false) ∧
    (∀ id, isZero (.vOther id) = false) := by
  refine ⟨?_, fun _ => rfl, fun _ _ => rfl, fun _ _ => rfl, fun _ _ => rfl,
    fun _ => rfl, fun _ => rfl, fun _ => rfl, fun _ => rfl, rfl, fun _ => rfl,
    fun _ _ => rfl, fun _ _ => rfl, fun _ => rfl⟩
  intro impl cfg pfx df sf dr sr hopt hinc hexc hmg hex hk
  obtain ⟨nm, ex, hm, v⟩ := df
  obtain ⟨snm, sex, shm, sv⟩ := sf
  simp only [Field.name] at hinc hexc
  simp only [Field.hasMerger] at hmg
  simp only [Field.exported] at hex
  simp only [Field.value] at hk ⊢
  simp only [Field.withValue]
  subst hmg; subst hex
  have hkb : (kind v == Kind.kStruct) = false := beq_eq_false_iff_ne.mpr hk
  have hne : (MergeOption.excludeEmpty == MergeOption.includeAll) = false := rfl
  simp only [mergeLoop, hinc, Bool.false_eq_true, if_false, hexc,
    Bool.not_true, hkb, hopt, hne, Bool.or_false]
  cases hz : isZero sv <;> simp [hz]

/-- Witness for C2: a non-empty `int` destination leaf survives an empty
source leaf under `ExcludeEmpty`. -/
theorem excludeEmpty_leaf_policy_witness :
    mergeLoop implId cfgEE "" (.cons (.mk "A" true false (.vInt 7)) .nil)
        (.cons (.mk "A" true false (.vInt 0)) .nil) =
      consLoop ((Field.mk "A" true false (.vInt 7)).withValue
          (if isZero (Field.mk "A" true false (.vInt 0)).value
           then (Field.mk "A" true false (.vInt 7)).value
           else (Field.mk "A" true false (.vInt 0)).value))
        (mergeLoop implId cfgEE "" .nil .nil) :=
  excludeEmpty_leaf_policy.1 implId cfgEE "" _ _ _ _ rfl (by decide)
    (by decide) rfl rfl (by decide)

/-- C3: under `OverwriteEmpty`, a processed leaf field (non-struct kind,
settable, passing the include/exclude filters, no `Merger` override) is
unchanged when the destination's prior value is non-empty, and takes the
source's value — even an empty one — when the destination's prior value is
empty. -/
theorem overwriteEmpty_leaf_policy (impl : MergerImpl) (cfg : Config)
    (pfx : String) (df sf : Field) (dr sr : Fields)
    (hopt : cfg.Option = MergeOption.overwriteEmpty)
    (hinc : ((!cfg.Include.isEmpty) &&
      !(shouldInclude (pfx ++ df.name) cfg.Include)) = false)
    (hexc : cfg.Exclude.contains (pfx ++ df.name) = false)
    (hmg : df.hasMerger = false) (hex : df.exported = true)
    (hk : kind df.value ≠ Kind.kStruct) :
    mergeLoop impl cfg pfx (.cons df dr) (.cons sf sr) =
      consLoop
        (df.withValue (if isZero df.value then sf.value else df.value))
        (mergeLoop impl cfg pfx dr sr) := by
  obtain ⟨nm, ex, hm, v⟩ := df
  obtain ⟨snm, sex, shm, sv⟩ := sf
  simp only [Field.name] at hinc hexc
  simp only [Field.hasMerger] at hmg
  simp only [Field.exported] at hex
  simp only [Field.value] at hk ⊢
  simp only [Field.withValue]
  subst hmg; subst hex
  have hkb : (kind v == Kind.kStruct) = false := beq_eq_false_iff_ne.mpr hk
  have hne : (MergeOption.overwriteEmpty == MergeOption.includeAll) = false :=
    rfl
  simp only [mergeLoop, hinc, Bool.false_eq_true, if_false, hexc,
    Bool.not_true, hkb, hopt, hne, Bool.or_false]
  cases hz : isZero v <;> simp [hz]

/-- Witness for C3: an empty destination leaf takes the source's value even
though the source value is itself empty, and the sibling instantiation shows
the shape of the general equation. -/
theorem overwriteEmpty_leaf_policy_witness :
    mergeLoop implId cfgOE "" (.cons (.mk "A" true false (.vUint 0)) .nil)
        (.cons (.mk "A" true false (.vUint 0)) .nil) =
      consLoop ((Field.mk "A" true false (.vUint 0)).withValue
          (if isZero (Field.mk "A" true false (.vUint 0)).value
           then (Field.mk "A" true false (.vUint 0)).value
           else (Field.mk "A" true false (.vUint 0)).value))
        (mergeLoop implId cfgOE "" .nil .nil) :=
  overwriteEmpty_leaf_policy implId cfgOE "" _ _ _ _ rfl (by decide)
    (by decide) rfl rfl (by decide)

/-- C4: with a non-empty include list a field is skipped unless
`shouldInclude` holds, which is: exact membership of the qualified path in
the include set, or — only for top-level paths without a `"."` — some
include key starting with the path as a plain string prefix; and the
`include = ["Address.Street"]` example enters `Address`, merges only
`Street`, and leaves every sibling at the destination's value. -/
theorem include_filter_semantics :
    (∀ (impl : MergerImpl) (cfg : Config) (pfx : String) (df sf : Field)
        (dr sr : Fields),
      cfg.Include ≠ [] →
      shouldInclude (pfx ++ df.name) cfg.Include = false →
      mergeLoop impl cfg pfx (.cons df dr) (.cons sf sr) =
        consLoop df (mergeLoop impl cfg pfx dr sr)) ∧
    (∀ (full : String) (inc : List String),
      shouldInclude full inc = true ↔
        (inc.contains full = true ∨
          (containsDot full = false ∧ ∃ k ∈ inc, hasPre k full = true))) ∧
    (Merge implId
      (.vPtr (personV "Alice" 30 (addrV "Old Street" "Old City" "Old Country")))
      (personV "Bob" 25 (addrV "New Street" "New City" "New Country"))
      [cfgInc] =
     .ret (.vPtr (personV "Alice" 30 (addrV "New Street" "Old City" "Old Country")))
       none) := by
  refine ⟨?_, ?_, rfl⟩
  · intro impl cfg pfx df sf dr sr hne hsi
    obtain ⟨nm, ex, hm, v⟩ := df
    obtain ⟨snm, sex, shm, sv⟩ := sf
    simp only [Field.name] at hsi
    have hie : cfg.Include.isEmpty = false := by
      cases hc : cfg.Include with
      | nil => exact absurd hc hne
      | cons a l => rfl
    simp [mergeLoop, hie, hsi]
  · intro full inc
    by_cases hc : inc.contains full
    · simp [shouldInclude, hc]
    · simp only [Bool.not_eq_true] at hc
      cases hd : containsDot full with
      | true => simp [shouldInclude, hc, hd]
      | false => simp [shouldInclude, hc, hd, List.any_eq_true]

/-- Witness for C4: with `include = ["Address.Street"]`, a top-level `Age`
field is skipped. -/
theorem include_filter_semantics_witness :
    mergeLoop implId cfgInc "" (.cons (.mk "Age" true false (.vInt 30)) .nil)
        (.cons (.mk "Age" true false (.vInt 25)) .nil) =
      consLoop (Field.mk "Age" true false (.vInt 30))
        (mergeLoop implId cfgInc "" .nil .nil) :=
  include_filter_semantics.1 implId cfgInc "" _ _ _ _ (by decide) (by decide)

/-- C5: a field whose qualified path is in the exclude set is skipped
unconditionally — for every policy, every include list (even one selecting
the same path), and every field value. -/
theorem exclude_always_skips (impl : MergerImpl) (cfg : Config)
    (pfx : String) (df sf : Field) (dr sr : Fields)
    (h : cfg.Exclude.contains (pfx ++ df.name) = true) :
    mergeLoop impl cfg pfx (.cons df dr) (.cons sf sr) =
      consLoop df (mergeLoop impl cfg pfx dr sr) := by
  obtain ⟨nm, ex, hm, v⟩ := df
  obtain ⟨snm, sex, shm, sv⟩ := sf
  simp only [Field.name] at h
  cases hc1 : (!cfg.Include.isEmpty) &&
      !(shouldInclude (pfx ++ nm) cfg.Include) with
  | true => simp [mergeLoop, hc1]
  | false =>
      have hmem : pfx ++ nm ∈ cfg.Exclude := List.mem_of_elem_eq_true h
      simp [mergeLoop, hc1, hmem]

/-- Witness for C5: `Name` is both included and excluded; it is skipped. -/
theorem exclude_always_skips_witness :
    mergeLoop implId cfgExc ""
        (.cons (.mk "Name" true false (.vString "Alice")) .nil)
        (.cons (.mk "Name" true false (.vString "Bob")) .nil) =
      consLoop (Field.mk "Name" true false (.vString "Alice"))
        (mergeLoop implId cfgExc "" .nil .nil) :=
  exclude_always_skips implId cfgExc "" _ _ _ _ (by decide)

/-- C7: when the whole destination record's pointer type implements
`Merger` (and the type is not `time.Time`), `Merge` delegates entirely to
the override and returns its updated value and its error verbatim; when the
override fires for an individual field, the updated field value is kept but
the override's error is discarded and the loop continues; in particular a
field-level override error still lets `Merge` succeed. -/
theorem merger_override_dispatch :
    (∀ (impl : MergerImpl) (cfgs : List Config) (info : StructInfo)
        (df : Fields) (s : Value),
      info.isTime = false → info.hasMerger = true →
      trEq (typeRep (.vStruct info df)) (typeRep s) = true →
      Merge impl (.vPtr (.vStruct info df)) s cfgs =
        .ret (.vPtr (impl (.vStruct info df) s).1)
          (impl (.vStruct info df) s).2) ∧
    (∀ (impl : MergerImpl) (cfg : Config) (pfx : String) (df sf : Field)
        (dr sr : Fields),
      ((!cfg.Include.isEmpty) &&
        !(shouldInclude (pfx ++ df.name) cfg.Include)) = false →
      cfg.Exclude.contains (pfx ++ df.name) = false →
      df.hasMerger = true → df.exported = true →
      mergeLoop impl cfg pfx (.cons df dr) (.cons sf sr) =
        consLoop (df.withValue (impl df.value sf.value).1)
          (mergeLoop impl cfg pfx dr sr)) ∧
    (Merge implBoom (.vPtr (planV 1)) (planV 2) [] =
      .ret (.vPtr (planV 2)) none) ∧
    (Merge implBoom (.vPtr (dateV 1)) (dateV 2) [] =
      .ret (.vPtr (dateV 2)) (some (.custom "boom"))) := by
  refine ⟨?_, ?_, rfl, rfl⟩
  · intro impl cfgs info df s h1 h2 ht
    obtain ⟨sinfo, sf, rfl, _, _⟩ := trEq_typeRep_struct ht
    simp [Merge, mergeValues, mergeBody, ht, h1, h2]
  · intro impl cfg pfx df sf dr sr hinc hexc hmg hex
    obtain ⟨nm, ex, hm, v⟩ := df
    obtain ⟨snm, sex, shm, sv⟩ := sf
    simp only [Field.name] at hinc hexc
    simp only [Field.hasMerger] at hmg
    simp only [Field.exported] at hex
    simp only [Field.value, Field.withValue]
    subst hmg; subst hex
    have hnmem : pfx ++ nm ∉ cfg.Exclude := by
      intro hmem
      have hel : cfg.Exclude.contains (pfx ++ nm) = true :=
        List.elem_eq_true_of_mem hmem
      rw [hel] at hexc
      exact Bool.noConfusion hexc
    simp [mergeLoop, hinc, hnmem]

/-- Witness for C7: the whole-record and field-level dispatch rules at
concrete `Date`/`Plan`-like values. -/
theorem merger_override_dispatch_witness :
    Merge implBoom (.vPtr (dateV 3)) (dateV 4) [] =
      .ret (.vPtr (implBoom (dateV 3) (dateV 4)).1)
        (implBoom (dateV 3) (dateV 4)).2 ∧
    mergeLoop implBoom allCfg "" (.cons (.mk "D" true true (.vUint 1)) .nil)
        (.cons (.mk "D" true true (.vUint 2)) .nil) =
      consLoop ((Field.mk "D" true true (.vUint 1)).withValue
          (implBoom (Field.mk "D" true true (.vUint 1)).value
            (Field.mk "D" true true (.vUint 2)).value).1)
        (mergeLoop implBoom allCfg "" .nil .nil) :=
  ⟨merger_override_dispatch.1 implBoom [] ⟨"structmerge.Date", false, true⟩
     (.cons (.mk "wall" false false (.vUint 3)) .nil) (dateV 4) rfl rfl
     (by decide),
   merger_override_dispatch.2.1 implBoom allCfg "" _ _ _ _ (by decide)
     (by decide) rfl rfl⟩

/-- C8: contrary to the claim, a nil pointer destination is not materialized
into a fresh zero value — it fails validation with `ErrInvalidDestination`,
because `Elem()` of a nil pointer has kind `Invalid`, so the line 67 guard
fires before the (unreachable) materialization block at lines 71-73. -/
theorem merge_nil_destination_rejected :
    Merge implId .vPtrNil (testStructV "Bob" 25 (addrV "" "" "") false 0 "")
      [] = .ret .vPtrNil (some .invalidDestination) := rfl

/-- C9: whenever `mergeValues` reaches a `time.Time` record — at top level
or by recursion into a nested field — the destination is overwritten
wholesale with the source and the call returns immediately with no error,
for every configuration; in particular, under `ExcludeEmpty` a zero-valued
source `time.Time` still replaces a non-zero destination `time.Time`. -/
theorem time_wholesale_copy :
    (∀ (impl : MergerImpl) (cfg : Config) (pfx : String) (info : StructInfo)
        (df : Fields) (s : Value),
      info.isTime = true →
      trEq (typeRep (.vStruct info df)) (typeRep s) = true →
      mergeBody impl cfg pfx (.vStruct info df) s = .ret s none) ∧
    (∀ (impl : MergerImpl) (cfgs : List Config) (info : StructInfo)
        (df : Fields) (s : Value),
      info.isTime = true →
      trEq (typeRep (.vStruct info df)) (typeRep s) = true →
      Merge impl (.vPtr (.vStruct info df)) s cfgs =
        .ret (.vPtr s) none) ∧
    (Merge implId (.vPtr (eventV 5)) (eventV 0) [cfgEE] =
      .ret (.vPtr (eventV 0)) none) := by
  refine ⟨?_, ?_, rfl⟩
  · intro impl cfg pfx info df s htime ht
    obtain ⟨sinfo, sf, rfl, _, _⟩ := trEq_typeRep_struct ht
    simp [mergeBody, ht, htime]
  · intro impl cfgs info df s htime ht
    obtain ⟨sinfo, sf, rfl, _, _⟩ := trEq_typeRep_struct ht
    simp [Merge, mergeValues, mergeBody, ht, htime]

/-- Witness for C9: a zero source `time.Time` replaces a non-zero
destination under `ExcludeEmpty`. -/
theorem time_wholesale_copy_witness :
    mergeBody implId cfgEE "" (timeV 5) (timeV 0) = .ret (timeV 0) none ∧
    Merge implId (.vPtr (timeV 5)) (timeV 0) [cfgEE] =
      .ret (.vPtr (timeV 0)) none :=
  ⟨time_wholesale_copy.1 implId cfgEE "" ⟨"time.Time", true, false⟩
     (.cons (.mk "wall" false false (.vUint 5)) .nil) (timeV 0) rfl
     (by decide),
   time_wholesale_copy.2.1 implId [cfgEE] ⟨"time.Time", true, false⟩
     (.cons (.mk "wall" false false (.vUint 5)) .nil) (timeV 0) rfl
     (by decide)⟩

/-- C10: merging two values of a struct type with an unexported field whose
pointer type implements `Merger` panics: the field-level override dispatch
calls `dstField.Addr().Interface()` — which panics on a value read from an
unexported field — before the `CanSet` check that would otherwise skip the
field. -/
theorem unexported_merger_field_panics :
    Merge implId (.vPtr (secretV 1)) (secretV 2) [] = MergeOut.panic := rfl

/-- Re-run of the `IncludeAll` and `HiddenFields` cases of `TestMerge`:
every exported field (nested ones included) takes the source value, the
unexported `hidden` field keeps the destination value. -/
theorem sanity_includeAll :
    Merge implId
      (.vPtr (testStructV "Alice" 30 (addrV "123 Old St" "Old City" "") false 0 "old"))
      (testStructV "Bob" 25 (addrV "456 New St" "New City" "New Country") true 5 "new")
      [] =
    MergeOut.ret
      (.vPtr (testStructV "Bob" 25 (addrV "456 New St" "New City" "New Country") true 5 "old"))
      none := rfl

/-- Re-run of the `ExcludeEmpty` case of `TestMerge`. -/
theorem sanity_excludeEmpty :
    Merge implId
      (.vPtr (testStructV "Alice" 30 (addrV "123 Old St" "Old City" "") false 10 ""))
      (testStructV "" 0 (addrV "" "New City" "New Country") true 0 "")
      [{ Option := MergeOption.excludeEmpty, Include := [], Exclude := [] }] =
    MergeOut.ret
      (.vPtr (testStructV "Alice" 30 (addrV "123 Old St" "New City" "New Country") true 10 ""))
      none := rfl

/-- Re-run of the `Include` case of `TestMerge`. -/
theorem sanity_includeList :
    Merge implId
      (.vPtr (testStructV "Alice" 30 (addrV "123 Old St" "Old City" "") false 10 ""))
      (testStructV "Bob" 25 (addrV "456 New St" "New City" "New Country") true 5 "")
      [{ Option := MergeOption.includeAll,
         Include := ["Name", "Address.Street", "Address.Country", "Count"],
         Exclude := [] }] =
    MergeOut.ret
      (.vPtr (testStructV "Bob" 30 (addrV "456 New St" "Old City" "New Country") false 5 ""))
      none := rfl

/-- Re-run of the `Exclude` case of `TestMerge`. -/
theorem sanity_excludeList :
    Merge implId
      (.vPtr (testStructV "Alice" 30 (addrV "123 Old St" "Old City" "") false 10 ""))
      (testStructV "Bob" 25 (addrV "456 New St" "New City" "New Country") true 5 "")
      [{ Option := MergeOption.includeAll,
         Include := [],
         Exclude := ["Name", "Age", "Address.City"] }] =
    MergeOut.ret
      (.vPtr (testStructV "Alice" 30 (addrV "456 New St" "Old City" "New Country") true 5 ""))
      none := rfl

end StructMerge
